import Mathlib

/-!
Verification development for the docking orchestration core of the
snowflake-snowfest backend (`backend/services/docking.py` and
`backend/services/workflow.py`).

The Python code is shallowly embedded: strings are modelled as `String` /
`List Char`, Python `float` values as exact rationals (`ℚ`) — with real-valued
(`ℝ`) derived quantities where the source computes square roots or cube
roots — and fallible code as `Except`.  Python's `inf`/`nan` float literals and
underscore digit separators are outside the modelled numeric fragment (they are
not representable in `ℚ`); they never occur in the docking-engine logs this
parser consumes.
-/

namespace Docking

/-! ### Python string primitives, modelled over character lists -/

/-- Python `str.isspace` for the characters relevant here
(space, tab, newline, carriage return, vertical tab, form feed). -/
def pyIsSpace (c : Char) : Bool :=
  c = ' ' || c = '\t' || c = '\n' || c = '\r' || c = '\x0b' || c = '\x0c'

/-- ASCII decimal digit test (Python `str.isdigit` on ASCII input). -/
def pyIsDigitChar (c : Char) : Bool :=
  '0' ≤ c && c ≤ '9'

/-- Python `s.isdigit()`: non-empty and all digits. -/
def pyIsDigit (s : List Char) : Bool :=
  !s.isEmpty && s.all pyIsDigitChar

/-- Python `content.split('\n')`: splits at newlines, keeping empty pieces;
the empty string yields `[""]`. -/
def pyLines : List Char → List (List Char)
  | [] => [[]]
  | c :: cs =>
    if c = '\n' then [] :: pyLines cs
    else
      match pyLines cs with
      | [] => [[c]]
      | l :: ls => (c :: l) :: ls

/-- Python `s.strip()`: remove leading and trailing whitespace. -/
def pyStrip (s : List Char) : List Char :=
  ((s.dropWhile pyIsSpace).reverse.dropWhile pyIsSpace).reverse

/-- Helper for `pyWords`: accumulates the current word (reversed). -/
def pyWordsAux : List Char → List Char → List (List Char)
  | cur, [] => if cur.isEmpty then [] else [cur.reverse]
  | cur, c :: cs =>
    if pyIsSpace c then
      if cur.isEmpty then pyWordsAux [] cs else cur.reverse :: pyWordsAux [] cs
    else pyWordsAux (c :: cur) cs

/-- Python `line.split()`: split on whitespace runs, discarding empties. -/
def pyWords (s : List Char) : List (List Char) :=
  pyWordsAux [] s

/-- True when the second list begins with `pat`. -/
def listStartsWith : List Char → List Char → Bool
  | [], _ => true
  | _ :: _, [] => false
  | p :: ps, c :: cs => p = c && listStartsWith ps cs

/-- Python `pat in s` (substring containment). -/
def containsSub (pat : List Char) : List Char → Bool
  | [] => listStartsWith pat []
  | c :: cs => listStartsWith pat (c :: cs) || containsSub pat cs

/-- Numeric value of a digit string (Python `int` on an `isdigit` string). -/
def digitsVal (ds : List Char) : ℕ :=
  ds.foldl (fun a c => 10 * a + (c.toNat - 48)) 0

/-- Optional exponent suffix of a Python float literal:
empty, or `e`/`E` followed by an optional sign and at least one digit. -/
def pyExpPart (base : ℚ) : List Char → Option ℚ
  | [] => some base
  | c :: cs =>
    if c = 'e' || c = 'E' then
      let sd : ℤ × List Char :=
        match cs with
        | '+' :: r => (1, r)
        | '-' :: r => (-1, r)
        | r => (1, r)
      if pyIsDigit sd.2 then some (base * (10 : ℚ) ^ (sd.1 * (digitsVal sd.2 : ℤ)))
      else none
    else none

/-- Unsigned part of a Python float literal: digits with an optional decimal
point (at least one digit overall) and an optional exponent. -/
def pyFloatMag (s : List Char) : Option ℚ :=
  let ip := s.takeWhile pyIsDigitChar
  let r1 := s.dropWhile pyIsDigitChar
  match r1 with
  | [] => if ip.isEmpty then none else some (digitsVal ip : ℚ)
  | '.' :: r2 =>
    let fp := r2.takeWhile pyIsDigitChar
    let r3 := r2.dropWhile pyIsDigitChar
    if ip.isEmpty && fp.isEmpty then none
    else pyExpPart ((digitsVal ip : ℚ) + (digitsVal fp : ℚ) / (10 : ℚ) ^ fp.length) r3
  | _ => if ip.isEmpty then none else pyExpPart (digitsVal ip : ℚ) r1

/-- Python `float(token)` on a decimal literal, as an exact rational
(`None` models a raised `ValueError`). -/
def pyFloat (s : List Char) : Option ℚ :=
  match s with
  | '+' :: r => pyFloatMag r
  | '-' :: r => (pyFloatMag r).map (fun q => -q)
  | r => pyFloatMag r

/-! ### The docking-log result parser
(`_parse_docking_modes_from_content`, docking.py lines 943-992) -/

/-- One ranked binding mode parsed from a docking log table row. -/
structure BindingMode where
  mode : ℕ
  affinity : ℚ
  rmsd_lb : ℚ
  rmsd_ub : ℚ
deriving DecidableEq, Repr

/-- One table row: at least four whitespace-separated tokens, the first all
digits, tokens 2-4 parsing as floats (a float `ValueError` skips the row). -/
def tryParseRow (line : List Char) : Option BindingMode :=
  let parts := pyWords line
  if 4 ≤ parts.length && pyIsDigit (parts.getD 0 []) then
    match pyFloat (parts.getD 1 []), pyFloat (parts.getD 2 []), pyFloat (parts.getD 3 []) with
    | some a, some lb, some ub => some ⟨digitsVal (parts.getD 0 []), a, lb, ub⟩
    | _, _, _ => none
  else none

/-- Header detection: `("mode |" in line and "affinity" in line.lower())
or "-----+------------" in line`. -/
def isHeaderLine (line : List Char) : Bool :=
  (containsSub "mode |".data line && containsSub "affinity".data (line.map Char.toLower))
    || containsSub "-----+------------".data line

/-- Loop state of the parser: whether the table header has been seen, and the
modes accumulated so far. -/
structure ParseState where
  parsing : Bool
  modes : List BindingMode
deriving DecidableEq, Repr

/-- One iteration of the parser's line loop. -/
def stepLine (st : ParseState) (line : List Char) : ParseState :=
  if isHeaderLine line then { st with parsing := true }
  else if containsSub "-----".data line && st.parsing && st.modes.isEmpty then st
  else if st.parsing && !(pyStrip line).isEmpty then
    match tryParseRow line with
    | some m => { st with modes := st.modes ++ [m] }
    | none => st
  else st

/-- Embeds `_parse_docking_modes_from_content`: fold the line loop over the log and
raise `DockingParseError` when no mode was recognized. -/
def parse_docking_modes_from_content (content : String) (toolName : String) :
    Except String (List BindingMode) :=
  let final := (pyLines content.data).foldl stepLine ⟨false, []⟩
  if final.modes.isEmpty then
    .error ("No valid docking modes found in " ++ toolName ++ " log file")
  else .ok final.modes

instance {ε α : Type} [DecidableEq ε] [DecidableEq α] : DecidableEq (Except ε α) := fun a b =>
  match a, b with
  | .error e, .error f => decidable_of_iff (e = f) (by simp)
  | .ok x, .ok y => decidable_of_iff (x = y) (by simp)
  | .error _, .ok _ => isFalse (by simp)
  | .ok _, .error _ => isFalse (by simp)

/-! ### Order preservation of the parser (claims C2, C7) -/

/-- Each line-loop step either leaves the accumulated modes unchanged or
appends the single row recognized on that line. -/
lemma stepLine_modes (st : ParseState) (l : List Char) :
    (stepLine st l).modes = st.modes ∨
      ∃ m, tryParseRow l = some m ∧ (stepLine st l).modes = st.modes ++ [m] := by
  by_cases h1 : isHeaderLine l
  · exact Or.inl (by simp [stepLine, h1])
  by_cases h2 : (containsSub "-----".data l && st.parsing && st.modes.isEmpty) = true
  · exact Or.inl (by simp [stepLine, h1, h2])
  by_cases h3 : (st.parsing && !(pyStrip l).isEmpty) = true
  · cases htr : tryParseRow l with
    | none => exact Or.inl (by simp [stepLine, h1, h2, h3, htr])
    | some m => exact Or.inr ⟨m, rfl, by simp [stepLine, h1, h2, h3, htr]⟩
  · exact Or.inl (by simp [stepLine, h1, h2, h3])

/-- The accumulated mode list is always a sublist, in order, of the rows
recognizable in the raw line sequence. -/
lemma foldl_stepLine_modes_sublist (lines : List (List Char)) :
    ∀ st : ParseState,
      ((lines.foldl stepLine st).modes).Sublist (st.modes ++ lines.filterMap tryParseRow) := by
  induction lines with
  | nil => intro st; simp
  | cons l ls ih =>
    intro st
    rw [List.foldl_cons, List.filterMap_cons]
    rcases stepLine_modes st l with h | ⟨m, hm, h⟩
    · have hsub := ih (stepLine st l)
      rw [h] at hsub
      refine hsub.trans ?_
      cases htr : tryParseRow l with
      | none => simp
      | some m2 => exact List.Sublist.append_left (List.sublist_cons_self m2 _) st.modes
    · have hsub := ih (stepLine st l)
      rw [h] at hsub
      simpa [hm, List.append_assoc] using hsub

/-- A mode list sorted non-decreasing by affinity (the spec's invariant on
`LigandDockingResult.modes`). -/
def sortedByAffinity (ms : List BindingMode) : Prop :=
  List.Pairwise (fun a b => a.affinity ≤ b.affinity) ms

/-- A log whose table rows are not in ascending-affinity order; the parser
accepts it verbatim. -/
def unsortedVinaLog : String :=
  "mode |   affinity | dist from best mode\n   1   -5.0   0.0   0.0\n   2   -7.0   0.0   0.0"

/-- C2 (counterexample): the parser does not sort.  On a log whose recognized
table rows appear in decreasing-affinity order it returns, without raising, a
modes list that is not sorted non-decreasing by affinity. -/
theorem c2_unsorted_log_counterexample :
    parse_docking_modes_from_content unsortedVinaLog "Vina" =
      .ok [⟨1, -5, 0, 0⟩, ⟨2, -7, 0, 0⟩]
    ∧ ¬ sortedByAffinity [⟨1, -5, 0, 0⟩, ⟨2, -7, 0, 0⟩] := by
  constructor
  · simp +decide [unsortedVinaLog, parse_docking_modes_from_content, pyLines, stepLine,
      isHeaderLine, containsSub, listStartsWith, pyStrip, pyWords, pyWordsAux, tryParseRow,
      pyFloat, pyFloatMag, pyExpPart, pyIsDigit, pyIsDigitChar, pyIsSpace, digitsVal]
  · simp [sortedByAffinity]
    norm_num

/-- C2 (amended): the parser preserves the order in which rows appear in the
log; hence the returned modes list is sorted non-decreasing by affinity
whenever the rows recognizable in the log appear in non-decreasing affinity
order (as the docking engine emits them). -/
theorem c2_parser_preserves_sorted_rows (content : String) (ms : List BindingMode)
    (hok : parse_docking_modes_from_content content "Vina" = .ok ms)
    (hrows : List.Pairwise (fun a b => a.affinity ≤ b.affinity)
      ((pyLines content.data).filterMap tryParseRow)) :
    sortedByAffinity ms := by
  have hsub := foldl_stepLine_modes_sublist (pyLines content.data) ⟨false, []⟩
  simp only [parse_docking_modes_from_content] at hok
  by_cases h : ((pyLines content.data).foldl stepLine ⟨false, []⟩).modes.isEmpty
  · simp [h] at hok
  · simp [h] at hok
    rw [← hok]
    exact List.Pairwise.sublist (by simpa using hsub) hrows

/-- A log whose recognized rows already appear sorted by affinity. -/
def c2WitnessLog : String :=
  "mode |   affinity\n   1   -9.0   0.0   0.0\n   2   -5.0   1.0   2.0"

theorem c2_sorted_log_witness :
    sortedByAffinity [⟨1, -9, 0, 0⟩, ⟨2, -5, 1, 2⟩] := by
  apply c2_parser_preserves_sorted_rows c2WitnessLog
  · simp +decide [c2WitnessLog, parse_docking_modes_from_content, pyLines, stepLine,
      isHeaderLine, containsSub, listStartsWith, pyStrip, pyWords, pyWordsAux, tryParseRow,
      pyFloat, pyFloatMag, pyExpPart, pyIsDigit, pyIsDigitChar, pyIsSpace, digitsVal]
  · simp +decide [c2WitnessLog, pyLines, tryParseRow, pyWords, pyWordsAux, pyFloat, pyFloatMag,
      pyExpPart, pyIsDigit, pyIsDigitChar, pyIsSpace, digitsVal]

/-! ### C7: the parser never returns an empty mode list -/

/-- Before the header has been seen, a non-header line leaves the state
unchanged. -/
lemma stepLine_of_not_header (st : ParseState) (l : List Char)
    (hh : ¬ isHeaderLine l = true) (hp : st.parsing = false) : stepLine st l = st := by
  simp [stepLine, hh, hp]

/-- If no line of the log is a header line, the parser never starts and
accumulates nothing. -/
lemma foldl_stepLine_no_header (lines : List (List Char))
    (h : ∀ l ∈ lines, ¬ isHeaderLine l = true) :
    lines.foldl stepLine ⟨false, []⟩ = ⟨false, []⟩ := by
  induction lines with
  | nil => rfl
  | cons l ls ih =>
    rw [List.foldl_cons, stepLine_of_not_header _ _ (h l (by simp)) rfl]
    exact ih (fun x hx => h x (by simp [hx]))

/-- C7: the result parser never returns an empty mode list — every log either
yields a non-empty list of modes or raises `DockingParseError`; the empty log
raises, a log that never reaches the table header raises, and a malformed row
encountered after parsing has started is skipped without aborting. -/
theorem c7_parser_never_returns_empty :
    (∀ (content : String) (ms : List BindingMode),
        parse_docking_modes_from_content content "Vina" = .ok ms → ms ≠ [])
    ∧ parse_docking_modes_from_content "" "Vina"
        = .error "No valid docking modes found in Vina log file"
    ∧ (∀ content : String,
        (∀ l ∈ pyLines content.data, ¬ isHeaderLine l = true) →
          parse_docking_modes_from_content content "Vina"
            = .error "No valid docking modes found in Vina log file")
    ∧ parse_docking_modes_from_content
        "mode |   affinity\n-----+------------\n   1   -7.0   0.0   0.0\n   2   bad-row   0.0   0.0\n   3   -5.0   1.0   2.0"
        "Vina" = .ok [⟨1, -7, 0, 0⟩, ⟨3, -5, 1, 2⟩] := by
  refine ⟨?_, by decide, ?_, ?_⟩
  · intro content ms hok
    simp only [parse_docking_modes_from_content] at hok
    by_cases h : ((pyLines content.data).foldl stepLine ⟨false, []⟩).modes.isEmpty
    · simp [h] at hok
    · simp [h] at hok
      intro hms
      exact h (by rw [hok, hms]; rfl)
  · intro content h
    simp only [parse_docking_modes_from_content, foldl_stepLine_no_header _ h]
    decide
  · simp +decide [parse_docking_modes_from_content, pyLines, stepLine, isHeaderLine, containsSub,
      listStartsWith, pyStrip, pyWords, pyWordsAux, tryParseRow, pyFloat, pyFloatMag, pyExpPart,
      pyIsDigit, pyIsDigitChar, pyIsSpace, digitsVal]

/-- A minimal well-formed log for exercising the parser. -/
def c7WitnessLog : String := "mode |   affinity\n   1   -9.0   0.0   0.0"

theorem c7_nonempty_witness :
    parse_docking_modes_from_content c7WitnessLog "Vina" = .ok [⟨1, -9, 0, 0⟩]
    ∧ ([⟨1, -9, 0, 0⟩] : List BindingMode) ≠ [] := by
  have hok : parse_docking_modes_from_content c7WitnessLog "Vina" = .ok [⟨1, -9, 0, 0⟩] := by
    simp +decide [c7WitnessLog, parse_docking_modes_from_content, pyLines, stepLine,
      isHeaderLine, containsSub, listStartsWith, pyStrip, pyWords, pyWordsAux, tryParseRow,
      pyFloat, pyFloatMag, pyExpPart, pyIsDigit, pyIsDigitChar, pyIsSpace, digitsVal]
  exact ⟨hok, c7_parser_never_returns_empty.1 c7WitnessLog _ hok⟩

/-! ### Ligand scheduler and batch summary (claim C1)
(`process_ligands_parallel` docking.py lines 360-481,
`run_autodock_vina` lines 85-181) -/

/-- Successful outcome of the per-ligand prepare + dock + parse pipeline,
abstracted as an oracle result; `Except.error` models any raised
`LigandPreparationError`, `VinaExecutionError`, `GninaExecutionError`,
`DockingParseError` or unexpected exception for that ligand. -/
structure DockSuccess where
  binding_affinity : ℚ
  modes : List BindingMode
deriving DecidableEq

/-- One ligand's result entry (`LigandDockingResult`). -/
structure LigandResult where
  ligand_name : String
  ligand_index : ℕ
  binding_affinity : Option ℚ
  modes : List BindingMode
  error : Option String
deriving DecidableEq

/-- Embeds `process_single_ligand`: an empty or whitespace-only payload
short-circuits to a failure entry, and any error raised by the per-ligand
pipeline is caught and converted into a failure entry with `error` set and
`binding_affinity` absent. -/
def process_single_ligand (dock : ℕ → String → Except String DockSuccess)
    (idx : ℕ) (content : String) : LigandResult :=
  let name := "ligand_" ++ toString idx
  if content.data.isEmpty || (pyStrip content.data).isEmpty then
    ⟨name, idx, none, [], some "Empty ligand content"⟩
  else
    match dock idx content with
    | .ok r => ⟨name, idx, some r.binding_affinity, r.modes, none⟩
    | .error e => ⟨name, idx, none, [], some e⟩

/-- Embeds `process_ligands_parallel`: one result per input ligand, in input order
(the single-ligand fast path and the semaphore-bounded `asyncio.gather` path
produce the same index-ordered list; gathered exceptions are converted to
failure entries). -/
def process_ligands_parallel (dock : ℕ → String → Except String DockSuccess)
    (ligand_files : List String) : List LigandResult :=
  ligand_files.enum.map (fun p => process_single_ligand dock p.1 p.2)

/-- Stable insertion into a list sorted by `key`: the new element goes before
the first element of greater-or-equal key. -/
def insertByKey {α : Type} (key : α → ℚ) (a : α) : List α → List α
  | [] => [a]
  | b :: bs => if key a ≤ key b then a :: b :: bs else b :: insertByKey key a bs

/-- Python's stable `list.sort(key=...)` (Timsort), modelled as stable
insertion sort — any two stable sorts by the same key agree. -/
def pySortByKey {α : Type} (key : α → ℚ) : List α → List α
  | [] => []
  | a :: rest => insertByKey key a (pySortByKey key rest)

lemma length_insertByKey {α : Type} (key : α → ℚ) (a : α) (l : List α) :
    (insertByKey key a l).length = l.length + 1 := by
  induction l with
  | nil => rfl
  | cons b bs ih =>
    by_cases h : key a ≤ key b <;> simp [insertByKey, h, ih]

lemma length_pySortByKey {α : Type} (key : α → ℚ) (l : List α) :
    (pySortByKey key l).length = l.length := by
  induction l with
  | nil => rfl
  | cons a rest ih => simp [pySortByKey, length_insertByKey, ih]

/-- The aggregate `DockingSummary` assembled by `run_autodock_vina`. -/
structure DockingSummary where
  total_ligands : ℕ
  successful_ligands : ℕ
  failed_ligands : ℕ
  results : List LigandResult
  best_score : Option ℚ
  best_ligand : Option String
deriving DecidableEq

/-- The batch portion of `run_autodock_vina`: schedule all ligands, raise
`DockingError` when no ligand produced a binding affinity, otherwise sort the
successful entries by affinity and assemble the summary. -/
def run_autodock_vina (dock : ℕ → String → Except String DockSuccess)
    (ligand_files : List String) : Except String DockingSummary :=
  if ligand_files.isEmpty then .error "At least one ligand file is required"
  else
    let all_results := process_ligands_parallel dock ligand_files
    if all_results.isEmpty || all_results.all (fun r => r.binding_affinity = none) then
      .error "All ligands failed to dock. Check logs for details."
    else
      let valid := pySortByKey (fun r => r.binding_affinity.getD 0)
        (all_results.filter (fun r => r.binding_affinity.isSome))
      .ok { total_ligands := ligand_files.length
            successful_ligands := valid.length
            failed_ligands := all_results.length - valid.length
            results := all_results
            best_score := valid.head?.bind (fun r => r.binding_affinity)
            best_ligand := valid.head?.map (fun r => r.ligand_name) }

/-- C1 (counterexample): when every ligand fails, `run_autodock_vina` raises
`DockingError` instead of returning a summary — no results list or summary
counts are produced, contrary to the claim's "even when every ligand fails". -/
theorem c1_all_fail_raises_counterexample :
    run_autodock_vina (fun _ _ => .error "ligand preparation failed") ["LIG"]
      = .error "All ligands failed to dock. Check logs for details." := by
  decide

/-- C1 (amended): the scheduler always returns exactly one result per input
ligand, failures retained with `error` set exactly when `binding_affinity` is
absent; and whenever at least one ligand succeeds — the only case in which
`run_autodock_vina` returns a summary rather than raising `DockingError` —
the summary keeps the full per-ligand results list and satisfies
`successful_ligands + failed_ligands = total_ligands = N`. -/
theorem c1_batch_isolation_and_summary_counts
    (dock : ℕ → String → Except String DockSuccess) (ligand_files : List String) :
    (process_ligands_parallel dock ligand_files).length = ligand_files.length
    ∧ (∀ r ∈ process_ligands_parallel dock ligand_files,
        (r.binding_affinity = none ↔ r.error.isSome = true))
    ∧ (∀ s : DockingSummary, run_autodock_vina dock ligand_files = .ok s →
        s.results = process_ligands_parallel dock ligand_files
        ∧ s.total_ligands = ligand_files.length
        ∧ s.results.length = ligand_files.length
        ∧ s.successful_ligands + s.failed_ligands = s.total_ligands) := by
  have hlen : (process_ligands_parallel dock ligand_files).length = ligand_files.length := by
    simp [process_ligands_parallel]
  refine ⟨hlen, ?_, ?_⟩
  · intro r hr
    simp only [process_ligands_parallel, List.mem_map] at hr
    obtain ⟨⟨i, c⟩, _, rfl⟩ := hr
    by_cases hc : (c.data.isEmpty || (pyStrip c.data).isEmpty) = true
    · simp [process_single_ligand, hc]
    · cases hd : dock i c <;> simp [process_single_ligand, hc, hd]
  · intro s hs
    simp only [run_autodock_vina] at hs
    by_cases h0 : ligand_files.isEmpty
    · simp [h0] at hs
    · simp only [h0, Bool.false_eq_true, if_false] at hs
      by_cases h1 : ((process_ligands_parallel dock ligand_files).isEmpty
          || (process_ligands_parallel dock ligand_files).all
              (fun r => r.binding_affinity = none)) = true
      · simp [h1] at hs
      · simp only [h1, Bool.false_eq_true, if_false, Except.ok.injEq] at hs
        subst hs
        refine ⟨rfl, rfl, hlen, ?_⟩
        have hv := List.length_filter_le
          (fun r => r.binding_affinity.isSome) (process_ligands_parallel dock ligand_files)
        simp only [length_pySortByKey]
        omega

/-- A dock oracle that always succeeds with one binding mode. -/
def c1Dock : ℕ → String → Except String DockSuccess :=
  fun _ _ => .ok ⟨-7, [⟨1, -7, 0, 0⟩]⟩

/-- The summary produced for a two-ligand batch where the second payload is
empty. -/
def c1Summary : DockingSummary :=
  ⟨2, 1, 1,
    [⟨"ligand_0", 0, some (-7), [⟨1, -7, 0, 0⟩], none⟩,
     ⟨"ligand_1", 1, none, [], some "Empty ligand content"⟩],
    some (-7), some "ligand_0"⟩

theorem c1_batch_isolation_witness :
    c1Summary.successful_ligands + c1Summary.failed_ligands = c1Summary.total_ligands
    ∧ c1Summary.total_ligands = 2 := by
  have h := (c1_batch_isolation_and_summary_counts c1Dock ["LIG", ""]).2.2 c1Summary (by decide)
  exact ⟨h.2.2.2, h.2.1⟩

/-! ### Parameter governor (`validate_and_normalize_parameters`,
docking.py lines 303-358; claims C4, C10) -/

/-- Python `int()` applied to a numeric value: truncation toward zero. -/
def ratTrunc (q : ℚ) : ℤ := if 0 ≤ q then ⌊q⌋ else ⌈q⌉

/-- The raw caller-supplied parameter map, restricted to numeric-or-absent
values (a non-numeric value makes the source raise inside `float()`/`int()`
before returning, so such maps are outside the claims' scope). -/
structure RawParams where
  center_x : Option ℚ := none
  grid_center_x : Option ℚ := none
  center_y : Option ℚ := none
  grid_center_y : Option ℚ := none
  center_z : Option ℚ := none
  grid_center_z : Option ℚ := none
  size_x : Option ℚ := none
  grid_size_x : Option ℚ := none
  size_y : Option ℚ := none
  grid_size_y : Option ℚ := none
  size_z : Option ℚ := none
  grid_size_z : Option ℚ := none
  exhaustiveness : Option ℚ := none
  num_modes : Option ℚ := none
  energy_range : Option ℚ := none
deriving DecidableEq

/-- The validated, normalized parameter set (`DockingParameters`). -/
structure NormalizedParams where
  center_x : ℚ
  center_y : ℚ
  center_z : ℚ
  size_x : ℚ
  size_y : ℚ
  size_z : ℚ
  exhaustiveness : ℤ
  num_modes : ℤ
  energy_range : ℚ
deriving DecidableEq

def DEFAULT_GRID_SIZE : ℚ := 20
def DEFAULT_EXHAUSTIVENESS : ℚ := 8
def MIN_EXHAUSTIVENESS : ℤ := 1
def MAX_EXHAUSTIVENESS : ℤ := 32
def DEFAULT_NUM_MODES : ℚ := 9
def MIN_NUM_MODES : ℤ := 1
def MAX_NUM_MODES : ℤ := 20
def DEFAULT_ENERGY_RANGE : ℚ := 3

/-- Embeds `validate_and_normalize_parameters`: alias fallback chains, numeric
coercion, hard clamps for exhaustiveness and num_modes; grid sizes outside
[5, 100] are only logged as warnings, which does not change the value. -/
def validate_and_normalize_parameters (p : RawParams) : NormalizedParams :=
  { center_x := p.center_x.getD (p.grid_center_x.getD 0)
    center_y := p.center_y.getD (p.grid_center_y.getD 0)
    center_z := p.center_z.getD (p.grid_center_z.getD 0)
    size_x := p.size_x.getD (p.grid_size_x.getD DEFAULT_GRID_SIZE)
    size_y := p.size_y.getD (p.grid_size_y.getD DEFAULT_GRID_SIZE)
    size_z := p.size_z.getD (p.grid_size_z.getD DEFAULT_GRID_SIZE)
    exhaustiveness := max MIN_EXHAUSTIVENESS (min MAX_EXHAUSTIVENESS
      (ratTrunc (p.exhaustiveness.getD DEFAULT_EXHAUSTIVENESS)))
    num_modes := max MIN_NUM_MODES (min MAX_NUM_MODES
      (ratTrunc (p.num_modes.getD (p.energy_range.getD DEFAULT_NUM_MODES))))
    energy_range := p.energy_range.getD DEFAULT_ENERGY_RANGE }

/-- C4: for every numeric-or-absent parameter map — including negative or
absent values — the governor's output has exhaustiveness in [1, 32] and
num_modes in [1, 20]. -/
theorem c4_exhaustiveness_num_modes_clamped (p : RawParams) :
    1 ≤ (validate_and_normalize_parameters p).exhaustiveness
    ∧ (validate_and_normalize_parameters p).exhaustiveness ≤ 32
    ∧ 1 ≤ (validate_and_normalize_parameters p).num_modes
    ∧ (validate_and_normalize_parameters p).num_modes ≤ 20 := by
  refine ⟨le_max_left _ _, ?_, le_max_left _ _, ?_⟩
  · exact max_le (by norm_num [MIN_EXHAUSTIVENESS, MAX_EXHAUSTIVENESS])
      ((min_le_left _ _).trans (by norm_num [MAX_EXHAUSTIVENESS]))
  · exact max_le (by norm_num [MIN_NUM_MODES, MAX_NUM_MODES])
      ((min_le_left _ _).trans (by norm_num [MAX_NUM_MODES]))

/-- C10: when `num_modes` is absent, `energy_range` is used as its fallback —
the normalized `num_modes` is `int(energy_range)` clamped to [1, 20] while the
normalized `energy_range` independently keeps its own value — and the default
9 applies only when both keys are absent. -/
theorem c10_energy_range_fallback (p : RawParams) (e : ℚ) (h1 : p.num_modes = none) :
    (p.energy_range = some e →
      (validate_and_normalize_parameters p).num_modes = max 1 (min 20 (ratTrunc e))
      ∧ (validate_and_normalize_parameters p).energy_range = e)
    ∧ (p.energy_range = none →
      (validate_and_normalize_parameters p).num_modes = 9) := by
  constructor
  · intro h2
    simp [validate_and_normalize_parameters, h1, h2, MIN_NUM_MODES, MAX_NUM_MODES]
  · intro h2
    simp only [validate_and_normalize_parameters, h1, h2, Option.getD_none, Option.getD_some,
      MIN_NUM_MODES, MAX_NUM_MODES, DEFAULT_NUM_MODES]
    norm_num [ratTrunc]

theorem c10_energy_range_fallback_witness :
    (validate_and_normalize_parameters { num_modes := none, energy_range := some (79/10) }).num_modes = 7
    ∧ (validate_and_normalize_parameters { num_modes := none, energy_range := some (79/10) }).energy_range = 79/10 := by
  have h := (c10_energy_range_fallback
    { num_modes := none, energy_range := some (79/10) } (79/10) rfl).1 rfl
  refine ⟨?_, h.2⟩
  rw [h.1]
  norm_num [ratTrunc]

/-! ### Dynamic docking timeout (`run_vina_docking`, docking.py lines
810-823; claim C8) -/

def BASE_DOCKING_TIMEOUT : ℤ := 120
def MAX_DOCKING_TIMEOUT : ℤ := 1200

/-- Timeout computation of the docking executor:
`min(MAX_DOCKING_TIMEOUT, max(BASE_DOCKING_TIMEOUT, exhaustiveness * BASE_DOCKING_TIMEOUT))`
seconds (identical in `run_vina_docking` and `run_gnina_docking`). -/
def vina_timeout_seconds (exhaustiveness : ℤ) : ℤ :=
  min MAX_DOCKING_TIMEOUT (max BASE_DOCKING_TIMEOUT (exhaustiveness * BASE_DOCKING_TIMEOUT))

/-- C8: the subprocess timeout equals `clamp(e·120 s, 120 s, 1200 s)`, and
exhaustiveness 10 yields exactly 1200 s. -/
theorem c8_dynamic_timeout_clamp :
    (∀ e : ℤ, vina_timeout_seconds e = max 120 (min 1200 (e * 120)))
    ∧ vina_timeout_seconds 10 = 1200 := by
  constructor
  · intro e
    simp only [vina_timeout_seconds, BASE_DOCKING_TIMEOUT, MAX_DOCKING_TIMEOUT]
    omega
  · decide

/-! ### Pose-quality derivation (`parse_vina_log`, docking.py lines 843-940;
claim C5) -/

/-- Python `min(list)` over rationals (junk value 0 on the empty list, which
the source never passes). -/
def qmin : List ℚ → ℚ
  | [] => 0
  | [a] => a
  | a :: b :: rest => min a (qmin (b :: rest))

/-- Python `max(list)` over rationals. -/
def qmax : List ℚ → ℚ
  | [] => 0
  | [a] => a
  | a :: b :: rest => max a (qmax (b :: rest))

/-- Python `statistics.mean`. -/
def meanQ (l : List ℚ) : ℚ := l.sum / l.length

/-- Python `statistics.variance` (sample variance, denominator n-1). -/
def sampleVarQ (l : List ℚ) : ℚ :=
  (l.map (fun x => (x - meanQ l) ^ 2)).sum / ((l.length : ℚ) - 1)

/-- Python `statistics.stdev` (sample standard deviation). -/
noncomputable def stdevR (l : List ℚ) : ℝ := Real.sqrt (sampleVarQ l)

/-- Affinities of the best `POSE_CONSISTENCY_TOP_N = 3` modes. -/
def top_n_affinities (modes : List BindingMode) : List ℚ :=
  (modes.take 3).map (fun m => m.affinity)

/-- Metric 1: top-N tightness, clamped to [0, 1]; defined as 0 when the best
top-N affinity is exactly zero. -/
def top_n_consistency (modes : List BindingMode) : ℚ :=
  let t := top_n_affinities modes
  if qmin t ≠ 0 then max 0 (min 1 (1 - (qmax t - qmin t) / |qmin t|)) else 0

/-- Metric 2: coefficient-of-variation spread across all modes, mapped
inversely to [0, 1] (cv of 100 when the mean is exactly zero). -/
noncomputable def spread_consistency (modes : List BindingMode) : ℝ :=
  let a := modes.map (fun m => m.affinity)
  if 1 < a.length then
    let cv : ℝ := if meanQ a ≠ 0 then stdevR a / |(meanQ a : ℝ)| * 100 else 100
    max 0 (min 1 (1 - cv / 50))
  else 1

/-- Metric 3: RMSD lower-bound spread mapped inversely to [0, 1]; default 0.5
when fewer than two RMSD values exist. -/
def rmsd_consistency (modes : List BindingMode) : ℚ :=
  let rv := modes.map (fun m => m.rmsd_lb)
  if 1 < rv.length then max 0 (min 1 (1 - (qmax rv - qmin rv) / 5)) else 1/2

/-- The derived pose consistency of `parse_vina_log`: a weighted blend for two
or more modes, and 1.0 by convention for a single mode. -/
noncomputable def pose_consistency (modes : List BindingMode) : ℝ :=
  if 1 < modes.length then
    (top_n_consistency modes : ℝ) * 0.5 + spread_consistency modes * 0.3
      + (rmsd_consistency modes : ℝ) * 0.2
  else 1

lemma top_n_consistency_bounds (modes : List BindingMode) :
    0 ≤ top_n_consistency modes ∧ top_n_consistency modes ≤ 1 := by
  by_cases h : qmin (top_n_affinities modes) ≠ 0
  · simp only [top_n_consistency, if_pos h]
    exact ⟨le_max_left _ _, max_le zero_le_one (min_le_left _ _)⟩
  · simp only [top_n_consistency, if_neg h]
    exact ⟨le_refl 0, zero_le_one⟩

lemma spread_consistency_bounds (modes : List BindingMode) :
    0 ≤ spread_consistency modes ∧ spread_consistency modes ≤ 1 := by
  by_cases h : 1 < (modes.map (fun m => m.affinity)).length
  · simp only [spread_consistency, if_pos h]
    exact ⟨le_max_left _ _, max_le zero_le_one (min_le_left _ _)⟩
  · simp only [spread_consistency, if_neg h]
    exact ⟨zero_le_one, le_refl 1⟩

lemma rmsd_consistency_bounds (modes : List BindingMode) :
    0 ≤ rmsd_consistency modes ∧ rmsd_consistency modes ≤ 1 := by
  by_cases h : 1 < (modes.map (fun m => m.rmsd_lb)).length
  · simp only [rmsd_consistency, if_pos h]
    exact ⟨le_max_left _ _, max_le zero_le_one (min_le_left _ _)⟩
  · simp only [rmsd_consistency, if_neg h]
    norm_num

/-- C5: pose consistency always lies in [0, 1]; with at least two modes it
equals the weighted blend `0.5·topN + 0.3·spread + 0.2·rmsd` of three
sub-scores each in [0, 1], and with exactly one mode it equals 1.0. -/
theorem c5_pose_consistency_bounds (modes : List BindingMode) :
    0 ≤ pose_consistency modes ∧ pose_consistency modes ≤ 1
    ∧ (1 < modes.length →
        pose_consistency modes
          = (top_n_consistency modes : ℝ) * 0.5 + spread_consistency modes * 0.3
            + (rmsd_consistency modes : ℝ) * 0.2
        ∧ 0 ≤ (top_n_consistency modes : ℝ) ∧ (top_n_consistency modes : ℝ) ≤ 1
        ∧ 0 ≤ spread_consistency modes ∧ spread_consistency modes ≤ 1
        ∧ 0 ≤ (rmsd_consistency modes : ℝ) ∧ (rmsd_consistency modes : ℝ) ≤ 1)
    ∧ (modes.length = 1 → pose_consistency modes = 1) := by
  have ht := top_n_consistency_bounds modes
  have hs := spread_consistency_bounds modes
  have hr := rmsd_consistency_bounds modes
  have ht1 : (0 : ℝ) ≤ (top_n_consistency modes : ℝ) := by exact_mod_cast ht.1
  have ht2 : (top_n_consistency modes : ℝ) ≤ 1 := by exact_mod_cast ht.2
  have hr1 : (0 : ℝ) ≤ (rmsd_consistency modes : ℝ) := by exact_mod_cast hr.1
  have hr2 : (rmsd_consistency modes : ℝ) ≤ 1 := by exact_mod_cast hr.2
  by_cases hlen : 1 < modes.length
  · have hpc : pose_consistency modes
        = (top_n_consistency modes : ℝ) * 0.5 + spread_consistency modes * 0.3
          + (rmsd_consistency modes : ℝ) * 0.2 := by
      simp only [pose_consistency, if_pos hlen]
    refine ⟨?_, ?_, fun _ => ⟨hpc, ht1, ht2, hs.1, hs.2, hr1, hr2⟩, fun h1 => absurd h1 (by omega)⟩
    · rw [hpc]; nlinarith [ht1, hs.1, hr1]
    · rw [hpc]; nlinarith [ht2, hs.2, hr2, ht1, hs.1, hr1]
  · have hpc : pose_consistency modes = 1 := by
      simp only [pose_consistency, if_neg hlen]
    exact ⟨by rw [hpc]; norm_num, by rw [hpc], fun h1 => absurd h1 hlen, fun _ => hpc⟩

theorem c5_pose_consistency_witness :
    pose_consistency [⟨1, -8, 0, 0⟩, ⟨2, -7, 1, 1⟩]
      = (top_n_consistency [⟨1, -8, 0, 0⟩, ⟨2, -7, 1, 1⟩] : ℝ) * 0.5
        + spread_consistency [⟨1, -8, 0, 0⟩, ⟨2, -7, 1, 1⟩] * 0.3
        + (rmsd_consistency [⟨1, -8, 0, 0⟩, ⟨2, -7, 1, 1⟩] : ℝ) * 0.2 :=
  ((c5_pose_consistency_bounds [⟨1, -8, 0, 0⟩, ⟨2, -7, 1, 1⟩]).2.2.1 (by decide)).1

/-! ### Statistics engine confidence score (`calculate_docking_statistics`,
docking.py lines 483-642, confidence at 577-588; claim C6) -/

/-- One successful result as seen by the statistics engine: its binding
affinity and its per-ligand pose consistency (absent when the upstream
pipeline did not set one). -/
structure StatResult where
  binding_affinity : ℚ
  pose_consistency : Option ℚ
deriving DecidableEq

def affinitiesOf (results : List StatResult) : List ℚ :=
  results.map (fun r => r.binding_affinity)

/-- Mean of the present per-ligand pose consistencies, 0.5 when none is
present. -/
def mean_pose_consistency (results : List StatResult) : ℚ :=
  let vals := results.filterMap (fun r => r.pose_consistency)
  if vals.isEmpty then 1/2 else meanQ vals

/-- Embeds `score_factor`: mean affinity mapped linearly from [-10, -5] to [0, 1],
clamped. -/
def score_factor (results : List StatResult) : ℚ :=
  min 1 (max 0 ((meanQ (affinitiesOf results) + 10) / 5))

/-- Embeds `std_affinity`: sample standard deviation for two or more results, 0.0
otherwise. -/
noncomputable def std_score (results : List StatResult) : ℝ :=
  if 1 < results.length then stdevR (affinitiesOf results) else 0

/-- Embeds `consistency_factor`: standard deviation mapped inversely from [0, 3] to
[1, 0], clamped. -/
noncomputable def consistency_factor (results : List StatResult) : ℝ :=
  min 1 (max 0 (1 - std_score results / 3))

/-- The composite confidence score exactly as combined in the source:
`score_factor * 0.4 + consistency_factor * 0.3 + pose_factor * 0.3`,
where `pose_factor = mean_pose_consistency` is used unclamped. -/
noncomputable def confidence_score (results : List StatResult) : ℝ :=
  (score_factor results : ℝ) * 0.4 + consistency_factor results * 0.3
    + (mean_pose_consistency results : ℝ) * 0.3

/-- The claim's formula, written from the spec's words: all three factors —
including the pose factor — clamped to [0, 1] before combination. -/
noncomputable def claimed_confidence_score (results : List StatResult) : ℝ :=
  0.4 * max 0 (min 1 (((meanQ (affinitiesOf results) : ℝ) + 10) / 5))
    + 0.3 * max 0 (min 1 (1 - std_score results / 3))
    + 0.3 * max 0 (min 1 (mean_pose_consistency results : ℝ))

lemma min_one_max_zero (x : ℝ) : min 1 (max 0 x) = max 0 (min 1 x) := by
  rw [min_max_distrib_left, min_eq_right zero_le_one]

/-- C6 (counterexample): the source does not clamp the pose factor.  A single
result with affinity -10 and pose consistency 2 yields confidence 0.9, while
the claim's all-clamped formula yields 0.6. -/
theorem c6_pose_factor_unclamped_counterexample :
    confidence_score [⟨-10, some 2⟩] = 9/10
    ∧ claimed_confidence_score [⟨-10, some 2⟩] = 3/5
    ∧ confidence_score [⟨-10, some 2⟩] ≠ claimed_confidence_score [⟨-10, some 2⟩] := by
  have hm : meanQ (affinitiesOf [⟨-10, some 2⟩]) = -10 := by
    norm_num [meanQ, affinitiesOf]
  have hsf : score_factor [⟨-10, some 2⟩] = 0 := by
    rw [score_factor, hm]
    norm_num [min_def, max_def]
  have hstd : std_score [⟨-10, some 2⟩] = 0 := by
    simp [std_score]
  have hcf : consistency_factor [⟨-10, some 2⟩] = 1 := by
    rw [consistency_factor, hstd]
    norm_num [min_def, max_def]
  have hmp : mean_pose_consistency [⟨-10, some 2⟩] = 2 := by
    norm_num [mean_pose_consistency, meanQ, List.filterMap_cons, List.filterMap_nil]
  have hA : confidence_score [⟨-10, some 2⟩] = 9/10 := by
    rw [confidence_score, hsf, hcf, hmp]
    norm_num
  have hB : claimed_confidence_score [⟨-10, some 2⟩] = 3/5 := by
    rw [claimed_confidence_score, hm, hstd, hmp]
    norm_num [min_def, max_def]
  refine ⟨hA, hB, ?_⟩
  rw [hA, hB]
  norm_num

/-- C6 (amended): the composite confidence score equals
`0.4·scoreFactor + 0.3·consistencyFactor + 0.3·poseFactor` with the score and
consistency factors clamped to [0, 1] as the claim states, but with the pose
factor used raw (the mean per-ligand pose consistency, unclamped). -/
theorem c6_confidence_formula (results : List StatResult) (h : results ≠ []) :
    confidence_score results
      = 0.4 * max 0 (min 1 (((meanQ (affinitiesOf results) : ℝ) + 10) / 5))
        + 0.3 * max 0 (min 1 (1 - std_score results / 3))
        + 0.3 * (mean_pose_consistency results : ℝ) := by
  unfold confidence_score score_factor consistency_factor
  push_cast
  rw [min_one_max_zero, min_one_max_zero]
  ring

theorem c6_confidence_formula_witness :
    confidence_score [⟨-7, none⟩]
      = 0.4 * max 0 (min 1 (((meanQ (affinitiesOf [⟨-7, none⟩]) : ℝ) + 10) / 5))
        + 0.3 * max 0 (min 1 (1 - std_score [⟨-7, none⟩] / 3))
        + 0.3 * (mean_pose_consistency [⟨-7, none⟩] : ℝ) :=
  c6_confidence_formula [⟨-7, none⟩] (by decide)

/-! ### Pose clusterer binning (`perform_pose_clustering`, docking.py lines
644-691; claim C3) -/

/-- Python `sorted()` on a rational list. -/
def pySortQ (l : List ℚ) : List ℚ := pySortByKey (fun q => q) l

/-- Python `statistics.median`: middle element of the sorted list for odd length,
mean of the two middle elements for even length. -/
def pyMedian (l : List ℚ) : ℚ :=
  let s := pySortQ l
  let n := s.length
  if n % 2 = 1 then s.getD (n / 2) 0
  else (s.getD (n / 2 - 1) 0 + s.getD (n / 2) 0) / 2

/-- Computes `max(affinities) - min(affinities)`. -/
def affinity_range (affs : List ℚ) : ℚ := qmax affs - qmin affs

/-- First quartile: median of the lower half of the sorted affinities
(`affinities[0]` for a single result). -/
def clusterQ1 (affs : List ℚ) : ℚ :=
  if 1 < affs.length then pyMedian ((pySortQ affs).take (affs.length / 2))
  else affs.getD 0 0

/-- Third quartile: median of the upper half of the sorted affinities
(`affinities[-1]` for a single result). -/
def clusterQ3 (affs : List ℚ) : ℚ :=
  if 1 < affs.length then pyMedian ((pySortQ affs).drop ((affs.length + 1) / 2))
  else affs.getLastD 0

def clusterIQR (affs : List ℚ) : ℚ := clusterQ3 affs - clusterQ1 affs

/-- Adaptive bin width of `perform_pose_clustering`: 0.5 for tight
distributions, 1.0 for moderate ones, a clamped Freedman-Diaconis estimate
for wide ones with positive IQR, and 1.0 for wide ones with IQR ≤ 0. -/
noncomputable def bin_size (affs : List ℚ) : ℝ :=
  if affinity_range affs < 2 then 0.5
  else if affinity_range affs < 5 then 1
  else if 0 < clusterIQR affs then
    max 0.5 (min 2 (2 * (clusterIQR affs : ℝ) / (affs.length : ℝ) ^ ((1 : ℝ) / 3)))
  else 1

/-- Python `int()` truncation of a real value toward zero. -/
noncomputable def pyTruncR (x : ℝ) : ℤ := if 0 ≤ x then ⌊x⌋ else ⌈x⌉

/-- The cluster-id assignment loop: `cluster_id = int(affinity / bin_size)`
for each result, in input order. -/
noncomputable def cluster_ids (affs : List ℚ) : List ℤ :=
  affs.map (fun a => pyTruncR ((a : ℝ) / bin_size affs))

/-- The claim's bin-width formula, written from the spec's words: the
Freedman-Diaconis clamp `clamp(2·IQR / n^(1/3), 0.5, 2.0)` applies
unconditionally whenever the range is at least 5. -/
noncomputable def claimed_bin_width (affs : List ℚ) : ℝ :=
  if affinity_range affs < 2 then 0.5
  else if affinity_range affs < 5 then 1
  else max 0.5 (min 2 (2 * (clusterIQR affs : ℝ) / (affs.length : ℝ) ^ ((1 : ℝ) / 3)))

/-- The amended bin-width formula: as claimed, except that a wide range with
IQR ≤ 0 falls back to 1.0 instead of the clamp (which would give 0.5). -/
noncomputable def amended_bin_width (affs : List ℚ) : ℝ :=
  if affinity_range affs < 2 then 0.5
  else if affinity_range affs < 5 then 1
  else if clusterIQR affs ≤ 0 then 1
  else max 0.5 (min 2 (2 * (clusterIQR affs : ℝ) / (affs.length : ℝ) ^ ((1 : ℝ) / 3)))

/-- C3 (counterexample): Python `int()` truncates toward zero, so a single
result with affinity -7.2 (bin width 0.5) is assigned bin -14, not the claimed
`floor(-14.4) = -15`; and for `[0, 0, 0, 0, 0, 10]` (range 10, IQR 0) the code
uses bin width 1, while the claim's clamp formula gives 0.5. -/
theorem c3_floor_counterexample :
    cluster_ids [-36/5] = [-14]
    ∧ ⌊((-36/5 : ℚ) : ℝ) / bin_size [-36/5]⌋ = -15
    ∧ bin_size [0, 0, 0, 0, 0, 10] = 1
    ∧ claimed_bin_width [0, 0, 0, 0, 0, 10] = 1/2 := by
  have hr1 : affinity_range [(-36/5 : ℚ)] = 0 := by
    norm_num [affinity_range, qmax, qmin]
  have hb1 : bin_size [(-36/5 : ℚ)] = 0.5 := by
    rw [bin_size, if_pos (by rw [hr1]; norm_num)]
  have hx : ((-36/5 : ℚ) : ℝ) / bin_size [(-36/5 : ℚ)] = -72/5 := by
    rw [hb1]
    push_cast
    norm_num
  have hr6 : affinity_range [(0 : ℚ), 0, 0, 0, 0, 10] = 10 := by
    norm_num [affinity_range, qmax, qmin, min_def, max_def]
  have hiqr : clusterIQR [(0 : ℚ), 0, 0, 0, 0, 10] = 0 := by
    norm_num [clusterIQR, clusterQ3, clusterQ1, pyMedian, pySortQ, pySortByKey, insertByKey,
      min_def, max_def]
  refine ⟨?_, ?_, ?_, ?_⟩
  · show [pyTruncR (((-36/5 : ℚ) : ℝ) / bin_size [(-36/5 : ℚ)])] = [-14]
    rw [hx]
    simp only [pyTruncR]
    rw [if_neg (by norm_num), show (-72/5 : ℝ) = -(72/5) by ring, Int.ceil_neg]
    norm_num
  · rw [hx]
    norm_num
  · rw [bin_size, if_neg (by rw [hr6]; norm_num), if_neg (by rw [hr6]; norm_num),
      if_neg (by rw [hiqr]; norm_num)]
  · rw [claimed_bin_width, if_neg (by rw [hr6]; norm_num), if_neg (by rw [hr6]; norm_num), hiqr]
    norm_num [min_def, max_def]

/-- C3 (amended): the bin width equals 0.5 when the affinity range is < 2,
1.0 when it is < 5, the clamped Freedman-Diaconis estimate when it is ≥ 5 with
positive IQR, and 1.0 when it is ≥ 5 with IQR ≤ 0; and every result with
affinity `a` is assigned cluster bin `int(a / binWidth)` truncated toward zero
(floor for a non-negative quotient, ceiling for a negative one). -/
theorem c3_bin_width_and_truncation (affs : List ℚ) (h : affs ≠ []) :
    bin_size affs = amended_bin_width affs
    ∧ cluster_ids affs = affs.map (fun a =>
        if 0 ≤ (a : ℝ) / bin_size affs then ⌊(a : ℝ) / bin_size affs⌋
        else ⌈(a : ℝ) / bin_size affs⌉) := by
  constructor
  · rw [bin_size, amended_bin_width]
    by_cases h1 : affinity_range affs < 2
    · simp [h1]
    by_cases h2 : affinity_range affs < 5
    · simp [h1, h2]
    by_cases h3 : 0 < clusterIQR affs
    · simp [h1, h2, h3, not_le.mpr h3]
    · simp [h1, h2, h3, not_lt.mp h3]
  · simp only [cluster_ids, pyTruncR]

theorem c3_bin_width_witness :
    bin_size [(-7 : ℚ)] = amended_bin_width [(-7 : ℚ)] :=
  (c3_bin_width_and_truncation [(-7 : ℚ)] (by decide)).1

/-! ### Workflow state machine (`workflow.py` lines 19-329; claim C9) -/

/-- Job status enumeration (`JobStatus`). -/
inductive JobStatus
  | submitted
  | predicting_structure
  | structure_predicted
  | docking
  | analyzing
  | completed
  | failed
deriving DecidableEq, Repr

/-- One call to `update_job_status`: the new status, the optional progress
value and the optional error message.  Progress messages and the extra
keyword fields are elided: they never touch the status, progress or
error-message columns. -/
structure StatusUpdate where
  status : JobStatus
  progress : Option ℚ
  error_message : Option String
deriving DecidableEq, Repr

/-- The persisted slice of the job record written by `update_job_status`. -/
structure JobRec where
  status : JobStatus
  progress : ℚ
  error_message : Option String
deriving DecidableEq, Repr

/-- Embeds `update_job_status` (workflow.py lines 19-88): set the status, store a
truthy (non-empty) error message, clamp and store the progress when one is
provided, and force progress to 100 on COMPLETED when none was passed. -/
def update_job_status (job : JobRec) (u : StatusUpdate) : JobRec :=
  let j1 : JobRec := { job with status := u.status }
  let j2 : JobRec :=
    match u.error_message with
    | some e => if e = "" then j1 else { j1 with error_message := some e }
    | none => j1
  let j3 : JobRec :=
    match u.progress with
    | some p => { j2 with progress := max 0 (min 100 p) }
    | none => j2
  if u.status = .completed ∧ u.progress = none then { j3 with progress := 100 }
  else j3

/-- An update carrying a progress value and no error. -/
def progUpd (st : JobStatus) (p : ℚ) : StatusUpdate := ⟨st, some p, none⟩

/-- The FAILED transition: the raised message, no progress value. -/
def failUpd (e : String) : StatusUpdate := ⟨.failed, none, some e⟩

/-- The sequence of `update_job_status` calls issued by
`run_alphafold_then_dock` after a successful structure prediction, given
`Except` oracles for the outcomes of the quality-assessment, binding-site,
docking, report and blockchain stages. -/
def tailUpdates (quality binding docking report chain : Except String Unit) :
    List StatusUpdate :=
  [progUpd .structure_predicted 35, progUpd .structure_predicted 35] ++
    match quality with
    | .error e => [failUpd e]
    | .ok _ =>
      [progUpd .structure_predicted 45, progUpd .structure_predicted 45] ++
        match binding with
        | .error e => [failUpd e]
        | .ok _ =>
          [progUpd .docking 55, progUpd .docking 55] ++
            match docking with
            | .error e => [failUpd e]
            | .ok _ =>
              [progUpd .analyzing 75, progUpd .analyzing 75] ++
                match report with
                | .error e => [failUpd e]
                | .ok _ =>
                  [progUpd .analyzing 95] ++
                    match chain with
                    | .error e => [failUpd e]
                    | .ok _ => [progUpd .completed 100]

/-- The full update trace of one attempt of `run_alphafold_then_dock`:
submission, prediction start, one callback update per progress fraction `p`
reported by the structure-prediction collaborator (mapped into the 5-35%
band), then either the FAILED transition (raised message, no progress) or the
remaining stages.  Failures of the molecular-properties enrichment are caught
inside the source and produce no update, so no oracle models them. -/
def run_alphafold_then_dock_updates (afProgress : List ℚ)
    (afResult quality binding docking report chain : Except String Unit) :
    List StatusUpdate :=
  [progUpd .submitted 0, progUpd .predicting_structure 5]
    ++ afProgress.map (fun p => progUpd .predicting_structure (5 + p * 30))
    ++ match afResult with
       | .error e => [failUpd e]
       | .ok _ => tailUpdates quality binding docking report chain

/-- The progress values actually written, in order. -/
def progressSeq (us : List StatusUpdate) : List ℚ :=
  us.filterMap (fun u => u.progress)

/-- A FAILED update that carries no progress value leaves the persisted
progress untouched. -/
lemma update_job_status_keeps_progress (job : JobRec) (u : StatusUpdate)
    (hf : u.status = .failed) (hp : u.progress = none) :
    (update_job_status job u).progress = job.progress := by
  rcases u with ⟨st, pr, em⟩
  simp only at hf hp
  subst hf
  subst hp
  rcases em with _ | e
  · simp [update_job_status]
  · by_cases he : e = "" <;> simp [update_job_status, he]

/-- Per-update sanity check used for the stage tails: a progress of exactly
100 only on COMPLETED, and FAILED only with no progress and an error set. -/
def updOk (u : StatusUpdate) : Bool :=
  (!(decide (u.progress = some (100 : ℚ))) || decide (u.status = JobStatus.completed))
    && (!(decide (u.status = JobStatus.failed))
        || (decide (u.progress = none) && !(decide (u.error_message = none))))

lemma updOk_props (u : StatusUpdate) (h : updOk u = true) :
    (u.progress = some 100 → u.status = .completed)
    ∧ (u.status = .failed → u.progress = none ∧ u.error_message ≠ none
        ∧ ∀ job : JobRec, (update_job_status job u).progress = job.progress) := by
  simp only [updOk, Bool.and_eq_true, Bool.or_eq_true, Bool.not_eq_true',
    decide_eq_true_eq, decide_eq_false_iff_not] at h
  obtain ⟨h1, h2⟩ := h
  refine ⟨fun hp => ?_, fun hf => ?_⟩
  · rcases h1 with h | h
    · exact absurd hp h
    · exact h
  · rcases h2 with h | h
    · exact absurd hf h
    · exact ⟨h.1, h.2, fun job => update_job_status_keeps_progress job u hf h.1⟩

/-- Gluing lemma for the monotone progress chain: the fixed prefix `[0, 5]`,
the callback band `5 + 30·p`, and any monotone tail starting at or above 35
chain together. -/
lemma chain_le_glue (ps : List ℚ) (hmem : ∀ p ∈ ps, 0 ≤ p ∧ p ≤ 1)
    (hchain : List.Chain' (· ≤ ·) ps) (tail : List ℚ)
    (htail : List.Chain' (· ≤ ·) tail)
    (hhead : ∀ t ∈ tail.head?, (35 : ℚ) ≤ t) :
    List.Chain' (· ≤ ·) (([0, 5] : List ℚ) ++ (ps.map (fun p => 5 + p * 30) ++ tail)) := by
  have hmono : ∀ a b : ℚ, a ≤ b → 5 + a * 30 ≤ 5 + b * 30 := fun a b hab => by nlinarith
  have hmapmem : ∀ x ∈ ps.map (fun p => 5 + p * 30), 5 ≤ x ∧ x ≤ 35 := by
    intro x hx
    rcases List.mem_map.mp hx with ⟨p, hp, rfl⟩
    have h1 := (hmem p hp).1
    have h2 := (hmem p hp).2
    constructor <;> nlinarith
  rw [List.chain'_append]
  refine ⟨by norm_num [List.chain'_cons], ?_, ?_⟩
  · rw [List.chain'_append]
    refine ⟨List.chain'_map_of_chain' _ hmono hchain, htail, ?_⟩
    intro x hx y hy
    have h35 := (hmapmem x (List.mem_of_mem_getLast? hx)).2
    have h35' := hhead y hy
    linarith
  · intro x hx y hy
    have hx5 : (5 : ℚ) = x := by
      have hl : (([0, 5] : List ℚ)).getLast? = some 5 := rfl
      rw [hl] at hx
      simpa using hx
    subst hx5
    rw [List.head?_append] at hy
    rcases hor : (ps.map (fun p => 5 + p * 30)).head? with _ | z
    · rw [hor, Option.none_or] at hy
      have := hhead y hy
      linarith
    · rw [hor] at hy
      have hz : z = y := by simpa using hy
      subst hz
      have hmem' : z ∈ ps.map (fun p => 5 + p * 30) :=
        List.mem_of_mem_head? (by rw [hor]; rfl)
      linarith [(hmapmem z hmem').1]

lemma progressSeq_append (a b : List StatusUpdate) :
    progressSeq (a ++ b) = progressSeq a ++ progressSeq b :=
  List.filterMap_append a b _

lemma progressSeq_callbacks (ps : List ℚ) :
    progressSeq (ps.map (fun p => progUpd .predicting_structure (5 + p * 30)))
      = ps.map (fun p => 5 + p * 30) := by
  induction ps with
  | nil => rfl
  | cons p ps ih =>
    show (5 + p * 30) :: progressSeq (ps.map (fun q => progUpd .predicting_structure (5 + q * 30)))
        = (5 + p * 30) :: ps.map (fun q => 5 + q * 30)
    exact congrArg _ ih

/-- All four C9 properties for a trace of the shape
prefix ++ callback band ++ stage tail. -/
lemma workflow_trace_props (ps : List ℚ)
    (hmem : ∀ p ∈ ps, 0 ≤ p ∧ p ≤ 1) (hchain : List.Chain' (· ≤ ·) ps)
    (T : List StatusUpdate)
    (h1 : List.Chain' (· ≤ ·) (progressSeq T))
    (h2 : ∀ t ∈ (progressSeq T).head?, (35 : ℚ) ≤ t)
    (h3 : ∀ x ∈ progressSeq T, 0 ≤ x ∧ x ≤ 100)
    (hOk : ∀ u ∈ T, updOk u = true) :
    List.Chain' (· ≤ ·) (progressSeq
      ([progUpd .submitted 0, progUpd .predicting_structure 5]
        ++ ps.map (fun p => progUpd .predicting_structure (5 + p * 30)) ++ T))
    ∧ (∀ x ∈ progressSeq
        ([progUpd .submitted 0, progUpd .predicting_structure 5]
          ++ ps.map (fun p => progUpd .predicting_structure (5 + p * 30)) ++ T),
        0 ≤ x ∧ x ≤ 100)
    ∧ (∀ u ∈ ([progUpd .submitted 0, progUpd .predicting_structure 5]
          ++ ps.map (fun p => progUpd .predicting_structure (5 + p * 30)) ++ T),
        u.progress = some 100 → u.status = .completed)
    ∧ (∀ u ∈ ([progUpd .submitted 0, progUpd .predicting_structure 5]
          ++ ps.map (fun p => progUpd .predicting_structure (5 + p * 30)) ++ T),
        u.status = .failed → u.progress = none ∧ u.error_message ≠ none
          ∧ ∀ job : JobRec, (update_job_status job u).progress = job.progress) := by
  have hseq : progressSeq
      ([progUpd .submitted 0, progUpd .predicting_structure 5]
        ++ ps.map (fun p => progUpd .predicting_structure (5 + p * 30)) ++ T)
      = ([0, 5] : List ℚ) ++ (ps.map (fun p => 5 + p * 30) ++ progressSeq T) := by
    rw [List.append_assoc, progressSeq_append, progressSeq_append, progressSeq_callbacks]
    rfl
  refine ⟨?_, ?_, ?_, ?_⟩
  · rw [hseq]
    exact chain_le_glue ps hmem hchain _ h1 h2
  · rw [hseq]
    intro x hx
    simp only [List.mem_append, List.mem_map, List.mem_cons, List.not_mem_nil, or_false] at hx
    rcases hx with (rfl | rfl) | ⟨p, hp, rfl⟩ | hx
    · norm_num
    · norm_num
    · have hb1 := (hmem p hp).1
      have hb2 := (hmem p hp).2
      constructor <;> nlinarith
    · exact h3 x hx
  · intro u hu h100
    simp only [List.mem_append, List.mem_map, List.mem_cons, List.not_mem_nil, or_false] at hu
    rcases hu with ((rfl | rfl) | ⟨p, hp, rfl⟩) | hu
    · simp only [progUpd, Option.some.injEq] at h100
      norm_num at h100
    · simp only [progUpd, Option.some.injEq] at h100
      norm_num at h100
    · simp only [progUpd, Option.some.injEq] at h100
      have := (hmem p hp).2
      nlinarith [h100]
    · exact (updOk_props u (hOk u hu)).1 h100
  · intro u hu hfail
    simp only [List.mem_append, List.mem_map, List.mem_cons, List.not_mem_nil, or_false] at hu
    rcases hu with ((rfl | rfl) | ⟨p, hp, rfl⟩) | hu
    · simp [progUpd] at hfail
    · simp [progUpd] at hfail
    · simp [progUpd] at hfail
    · exact (updOk_props u (hOk u hu)).2 hfail

/-- C9: within a single attempt of `run_alphafold_then_dock`, the written
progress values are monotonically non-decreasing and lie in [0, 100]; a
progress of exactly 100 is written only on the COMPLETED transition; and any
stage failure produces a FAILED transition carrying the raised message and no
progress value, so applying it through `update_job_status` retains the
previously persisted progress.  The hypotheses state the structure-prediction
collaborator's progress-callback contract: fractions in [0, 1], reported
non-decreasing. -/
theorem c9_progress_monotone (ps : List ℚ)
    (afResult quality binding docking report chain : Except String Unit)
    (us : List StatusUpdate)
    (hus : us = run_alphafold_then_dock_updates ps afResult quality binding docking report chain)
    (hmem : ∀ p ∈ ps, 0 ≤ p ∧ p ≤ 1)
    (hchain : List.Chain' (· ≤ ·) ps) :
    List.Chain' (· ≤ ·) (progressSeq us)
    ∧ (∀ x ∈ progressSeq us, 0 ≤ x ∧ x ≤ 100)
    ∧ (∀ u ∈ us, u.progress = some 100 → u.status = .completed)
    ∧ (∀ u ∈ us, u.status = .failed → u.progress = none ∧ u.error_message ≠ none
        ∧ ∀ job : JobRec, (update_job_status job u).progress = job.progress) := by
  subst hus
  rcases afResult with e | u
  · simp only [run_alphafold_then_dock_updates]
    refine workflow_trace_props ps hmem hchain [failUpd e] ?_ ?_ ?_ ?_
    · simp [progressSeq, failUpd]
    · simp [progressSeq, failUpd]
    · simp [progressSeq, failUpd]
    · intro u hu
      fin_cases hu <;> simp [updOk, failUpd]
  · simp only [run_alphafold_then_dock_updates, tailUpdates]
    rcases quality with e | u1
    · refine workflow_trace_props ps hmem hchain _ ?_ ?_ ?_ ?_
      · norm_num [progressSeq, progUpd, failUpd, List.filterMap_cons, List.filterMap_nil,
          List.cons_append, List.nil_append, List.chain'_cons]
      · intro t ht
        simp [progressSeq, progUpd, failUpd, List.filterMap_cons] at ht
        exact ht.le
      · intro x hx
        simp [progressSeq, progUpd, failUpd, List.filterMap_cons] at hx
        rcases hx with rfl | rfl <;> norm_num
      · intro u hu
        simp only [List.cons_append, List.nil_append] at hu
        fin_cases hu <;> simp [updOk, progUpd, failUpd] <;> norm_num
    · rcases binding with e | u2
      · refine workflow_trace_props ps hmem hchain _ ?_ ?_ ?_ ?_
        · norm_num [progressSeq, progUpd, failUpd, List.filterMap_cons, List.filterMap_nil,
            List.cons_append, List.nil_append, List.chain'_cons]
        · intro t ht
          simp [progressSeq, progUpd, failUpd, List.filterMap_cons] at ht
          exact ht.le
        · intro x hx
          simp [progressSeq, progUpd, failUpd, List.filterMap_cons] at hx
          rcases hx with rfl | rfl | rfl <;> norm_num
        · intro u hu
          simp only [List.cons_append, List.nil_append] at hu
          fin_cases hu <;> simp [updOk, progUpd, failUpd] <;> norm_num
      · rcases docking with e | u3
        · refine workflow_trace_props ps hmem hchain _ ?_ ?_ ?_ ?_
          · norm_num [progressSeq, progUpd, failUpd, List.filterMap_cons, List.filterMap_nil,
              List.cons_append, List.nil_append, List.chain'_cons]
          · intro t ht
            simp [progressSeq, progUpd, failUpd, List.filterMap_cons] at ht
            exact ht.le
          · intro x hx
            simp [progressSeq, progUpd, failUpd, List.filterMap_cons] at hx
            rcases hx with rfl | rfl | rfl | rfl <;> norm_num
          · intro u hu
            simp only [List.cons_append, List.nil_append] at hu
            fin_cases hu <;> simp [updOk, progUpd, failUpd] <;> norm_num
        · rcases report with e | u4
          · refine workflow_trace_props ps hmem hchain _ ?_ ?_ ?_ ?_
            · norm_num [progressSeq, progUpd, failUpd, List.filterMap_cons, List.filterMap_nil,
                List.cons_append, List.nil_append, List.chain'_cons]
            · intro t ht
              simp [progressSeq, progUpd, failUpd, List.filterMap_cons] at ht
              exact ht.le
            · intro x hx
              simp [progressSeq, progUpd, failUpd, List.filterMap_cons] at hx
              rcases hx with rfl | rfl | rfl | rfl | rfl <;> norm_num
            · intro u hu
              simp only [List.cons_append, List.nil_append] at hu
              fin_cases hu <;> simp [updOk, progUpd, failUpd] <;> norm_num
          · rcases chain with e | u5
            · refine workflow_trace_props ps hmem hchain _ ?_ ?_ ?_ ?_
              · norm_num [progressSeq, progUpd, failUpd, List.filterMap_cons, List.filterMap_nil,
                  List.cons_append, List.nil_append, List.chain'_cons]
              · intro t ht
                simp [progressSeq, progUpd, failUpd, List.filterMap_cons] at ht
                exact ht.le
              · intro x hx
                simp [progressSeq, progUpd, failUpd, List.filterMap_cons] at hx
                rcases hx with rfl | rfl | rfl | rfl | rfl | rfl <;> norm_num
              · intro u hu
                simp only [List.cons_append, List.nil_append] at hu
                fin_cases hu <;> simp [updOk, progUpd, failUpd] <;> norm_num
            · refine workflow_trace_props ps hmem hchain _ ?_ ?_ ?_ ?_
              · norm_num [progressSeq, progUpd, failUpd, List.filterMap_cons, List.filterMap_nil,
                  List.cons_append, List.nil_append, List.chain'_cons]
              · intro t ht
                simp [progressSeq, progUpd, failUpd, List.filterMap_cons] at ht
                exact ht.le
              · intro x hx
                simp [progressSeq, progUpd, failUpd, List.filterMap_cons] at hx
                rcases hx with rfl | rfl | rfl | rfl | rfl | rfl | rfl <;> norm_num
              · intro u hu
                simp only [List.cons_append, List.nil_append] at hu
                fin_cases hu <;> simp [updOk, progUpd, failUpd] <;> norm_num

theorem c9_progress_monotone_witness :
    List.Chain' (· ≤ ·) (progressSeq (run_alphafold_then_dock_updates [1/2]
      (.ok ()) (.ok ()) (.ok ()) (.ok ()) (.ok ()) (.ok ()))) :=
  (c9_progress_monotone [1/2] (.ok ()) (.ok ()) (.ok ()) (.ok ()) (.ok ()) (.ok ()) _ rfl
    (by intro p hp; simp at hp; subst hp; norm_num)
    (by simp)).1

end Docking
